import Mathlib

/-!
Verification of the rule-based content gate (rules-engine, research-verifier,
pre-tool-gate dispatch, path utilities) of the triple-verification plugin.

The JavaScript sources are shallowly embedded here:
* regular expressions become an explicit syntax tree `RE` together with a
  backtracking matcher `ends` that reproduces the ECMAScript semantics used by
  the source (greedy/lazy quantifiers in preference order, leftmost match,
  word boundaries, multiline anchors, negative lookahead, `exec` with the `g`
  flag advancing `lastIndex` to the end of the previous match);
* the rule catalogs, `_runRules`, `runCycle1`, `runCycle2` (rules-engine.mjs),
  `runCycle4` with `extractClaims` and `hasNearbySource`
  (research-verifier.mjs), the dispatch in pre-tool-gate.mjs, and
  `getFileExtension` / `isResearchFile` (shared utils) are translated
  function by function.
Strings are handled as `List Char`; a `null` content value is modelled by
`Option String`, where `RegExp.test(null)` coerces `null` to the string
"null" just as JavaScript does.
-/

namespace TripleVerify

/-- The ECMAScript `\s` class (whitespace) as used by `RegExp`. -/
def jsSpace (c : Char) : Bool :=
  c = ' ' || c = '\t' || c = '\n' || c = '\r' ||
  c.toNat = 11 || c.toNat = 12 || c.toNat = 0xa0 || c.toNat = 0x1680 ||
  (0x2000 ≤ c.toNat && c.toNat ≤ 0x200a) ||
  c.toNat = 0x2028 || c.toNat = 0x2029 || c.toNat = 0x202f ||
  c.toNat = 0x205f || c.toNat = 0x3000 || c.toNat = 0xfeff

/-- ECMAScript line terminators (what `.` refuses to match, and what the
multiline anchors `^`/`$` recognise). -/
def lineTerm (c : Char) : Bool :=
  c = '\n' || c = '\r' || c.toNat = 0x2028 || c.toNat = 0x2029

/-- ECMAScript word characters, used by the `\b` assertion. -/
def wordChar (c : Char) : Bool :=
  ('A' ≤ c && c ≤ 'Z') || ('a' ≤ c && c ≤ 'z') || ('0' ≤ c && c ≤ '9') || c = '_'

/-- Syntax of the regular-expression fragment used by the rule catalogs.
Character classes carry explicit character lists so that everything stays
decidable.  `nspc extra` is the negated class `[^\s…]` (no whitespace and none
of `extra`), `dot` is `.` (anything but a line terminator), `wordB` is `\b`,
`bolm`/`eolm` are the multiline `^`/`$`, and `nla` is negative lookahead. -/
inductive RE where
  | eps
  | ch (c : Char)
  | cls (l : List Char)
  | ncls (l : List Char)
  | nspc (extra : List Char)
  | spc
  | dot
  | seq (a b : RE)
  | alt (a b : RE)
  | star (r : RE)
  | lazyStar (r : RE)
  | opt (r : RE)
  | wordB
  | bolm
  | eolm
  | nla (r : RE)
deriving DecidableEq, Repr

/-- A matcher state: the absolute index reached, the character immediately
before it (what `\\b` and the multiline `^` inspect), and the remaining
input.  `execFrom` only ever builds states where `prev` and `rest` are the
split of the subject string at `idx`. -/
structure MPos where
  idx : Nat
  prev : Option Char
  rest : List Char
deriving DecidableEq, Repr

/-- All states reachable by matching `re` at state `p`, in the backtracking
preference order of an ECMAScript engine: a greedy quantifier lists longer
attempts first, a lazy one shorter first, an alternation lists the left
branch first.  Every iteration of `star`/`lazyStar` must consume at least one
character (exactly the ECMAScript rule that stops empty repetitions).  The
`fuel` argument bounds the recursion depth so that the definition is
structural (and hence computes by kernel reduction); the canonical fuel
chosen in `execFrom` exceeds any reachable depth, since a path of the search
descends each syntactic node once except a quantifier node, which it can
re-enter at most once per remaining character. -/
def ends : Nat → RE → MPos → List MPos
  | 0, _, _ => []
  | fuel + 1, re, p =>
    match re with
    | .eps => [p]
    | .ch c =>
      match p.rest with
      | d :: rest => if d = c then [⟨p.idx + 1, some d, rest⟩] else []
      | [] => []
    | .cls l =>
      match p.rest with
      | d :: rest => if l.contains d then [⟨p.idx + 1, some d, rest⟩] else []
      | [] => []
    | .ncls l =>
      match p.rest with
      | d :: rest => if l.contains d then [] else [⟨p.idx + 1, some d, rest⟩]
      | [] => []
    | .nspc extra =>
      match p.rest with
      | d :: rest =>
        if jsSpace d || extra.contains d then [] else [⟨p.idx + 1, some d, rest⟩]
      | [] => []
    | .spc =>
      match p.rest with
      | d :: rest => if jsSpace d then [⟨p.idx + 1, some d, rest⟩] else []
      | [] => []
    | .dot =>
      match p.rest with
      | d :: rest => if lineTerm d then [] else [⟨p.idx + 1, some d, rest⟩]
      | [] => []
    | .seq a b => (ends fuel a p).flatMap (fun q => ends fuel b q)
    | .alt a b => ends fuel a p ++ ends fuel b p
    | .star r =>
      (((ends fuel r p).filter (fun q => p.idx < q.idx)).flatMap
        (fun q => ends fuel (.star r) q)) ++ [p]
    | .lazyStar r =>
      p :: ((ends fuel r p).filter (fun q => p.idx < q.idx)).flatMap
        (fun q => ends fuel (.lazyStar r) q)
    | .opt r => ends fuel r p ++ [p]
    | .wordB =>
      let before := match p.prev with
        | some d => wordChar d
        | none => false
      let after := match p.rest.head? with
        | some d => wordChar d
        | none => false
      if before != after then [p] else []
    | .bolm =>
      match p.prev with
      | none => [p]
      | some d => if lineTerm d then [p] else []
    | .eolm =>
      match p.rest with
      | [] => [p]
      | d :: _ => if lineTerm d then [p] else []
    | .nla r => if (ends fuel r p).isEmpty then [p] else []

/-- Number of syntactic nodes of a regex, used to size the fuel of the
matcher. -/
def reSize : RE → Nat
  | .eps | .ch _ | .cls _ | .ncls _ | .nspc _ | .spc | .dot
  | .wordB | .bolm | .eolm => 1
  | .seq a b | .alt a b => reSize a + reSize b + 1
  | .star r | .lazyStar r | .opt r | .nla r => reSize r + 1

/-- The canonical (ample) fuel for matching `r` against `s`. -/
def mFuel (r : RE) (s : List Char) : Nat := (reSize r + 1) * (s.length + 2)

/-- The matcher state at absolute position `start` of `s`. -/
def posAt (s : List Char) (start : Nat) : MPos :=
  { idx := start,
    prev := if start = 0 then none else (s.drop (start - 1)).head?,
    rest := s.drop start }

/-- Try the match at every successive position, returning the first start
position admitting a match together with the end position preferred by the
backtracking order (the head of `ends`). -/
def scan (r : RE) (fuel : Nat) : Nat → MPos → Option (Nat × Nat)
  | 0, _ => none
  | steps + 1, p =>
    match (ends fuel r p).head? with
    | some q => some (p.idx, q.idx)
    | none =>
      match p.rest with
      | [] => none
      | c :: rest => scan r fuel steps { idx := p.idx + 1, prev := some c, rest := rest }

/-- `RegExp.prototype.exec` starting the search at `start` (the `lastIndex`
of a `g`-flagged regex): the (start, end) indices of the first match. -/
def execFrom (r : RE) (s : List Char) (start : Nat) : Option (Nat × Nat) :=
  scan r (mFuel r s) (s.length + 1 - start) (posAt s start)

/-- `RegExp.prototype.test`. -/
def reTest (r : RE) (s : List Char) : Bool :=
  (execFrom r s 0).isSome

/-- The loop `while ((match = globalPattern.exec(content)) !== null)`:
every match as (start index, matched text), `lastIndex` advancing to the end
of each match. -/
def execAll (r : RE) (s : List Char) : Nat → Nat → List (Nat × List Char)
  | 0, _ => []
  | fuel + 1, start =>
    match execFrom r s start with
    | none => []
    | some (i, e) =>
      (i, (s.drop i).take (e - i)) :: execAll r s fuel (if i < e then e else i + 1)

/-- All global matches of `r` in `s`. -/
def matchesOf (r : RE) (s : List Char) : List (Nat × List Char) :=
  execAll r s (s.length + 2) 0

/-- `String.prototype.includes`: literal substring test. -/
def includesSub (s sub : List Char) : Bool :=
  match s with
  | [] => sub.isEmpty
  | _ :: t => if sub.isPrefixOf s then true else includesSub t sub

/-- ASCII lower-casing of one character, the fragment of
`String.prototype.toLowerCase` exercised by the sources (paths, extensions and
rule patterns are ASCII). -/
def toLowerChar (c : Char) : Char :=
  if 'A' ≤ c && c ≤ 'Z' then Char.ofNat (c.toNat + 32) else c

/-- ASCII upper-casing of one character (used to expand the `i` flag). -/
def toUpperChar (c : Char) : Char :=
  if 'a' ≤ c && c ≤ 'z' then Char.ofNat (c.toNat - 32) else c

/-- Sequence of regexes, `cat [a, b, c]` = `abc`. -/
def cat (l : List RE) : RE := l.foldr RE.seq RE.eps

/-- Alternation in left-to-right preference order; the empty alternation never
matches. -/
def alts : List RE → RE
  | [] => .nla .eps
  | [r] => r
  | r :: rest => .alt r (alts rest)

/-- A case-sensitive literal. -/
def str (s : String) : RE := cat (s.data.map RE.ch)

/-- A case-insensitive literal (the `i` flag on an ASCII literal: each letter
matches its two case variants; ECMAScript canonicalisation maps no non-ASCII
character onto an ASCII one). -/
def stri (s : String) : RE := cat (s.data.map (fun c => RE.cls [toLowerChar c, toUpperChar c]))

/-- `r+` (greedy). -/
def plus (r : RE) : RE := .seq r (.star r)

/-- `r` repeated exactly `n` times. -/
def repN : Nat → RE → RE
  | 0, _ => .eps
  | n + 1, r => .seq r (repN n r)

/-- `r{n,}` (greedy). -/
def repAtLeast (n : Nat) (r : RE) : RE := .seq (repN n r) (.star r)

/-- The words of a vague phrase joined by `\s+`, as built by
`p.replace(/\s+/g, '\\s+')` in research-verifier.mjs. -/
def phrase : List String → RE
  | [] => .eps
  | [w] => stri w
  | w :: rest => .seq (stri w) (.seq (plus .spc) (phrase rest))

/-- The inclusive character range from `a` to `b`. -/
def rangeChars (a b : Char) : List Char :=
  (List.range (b.toNat + 1 - a.toNat)).map (fun k => Char.ofNat (a.toNat + k))

/-- `[0-9]`, i.e. `\d`. -/
def digitC : RE := .cls (rangeChars '0' '9')

/-- `[a-zA-Z]`. -/
def alphaC : RE := .cls (rangeChars 'a' 'z' ++ rangeChars 'A' 'Z')

/-- The quote class ``['"`]``. -/
def quoteC : RE := .cls ['\'', '"', Char.ofNat 96]

/-- The left and right curly brace characters. -/
def lbrace : Char := Char.ofNat 123

/-- See `lbrace`. -/
def rbrace : Char := Char.ofNat 125

/-- A violation record `{ruleId, cycle, message}` as produced by the engines. -/
structure Violation where
  ruleId : String
  cycle : Nat
  message : String
deriving DecidableEq, Repr

/-- The configuration consumed by the core: `config.disabledRules || []` and
the toggle `config.cycle4?.enabled !== false` (true unless explicitly
disabled). -/
structure Config where
  disabledRules : List String := []
  cycle4Enabled : Bool := true
deriving DecidableEq, Repr

/-- One rule of the catalog:
`{ id, description, pattern, appliesTo, fileExtensions?, message }`. -/
structure Rule where
  id : String
  description : String
  pattern : RE
  appliesTo : String
  fileExtensions : Option (List String)
  message : String
deriving DecidableEq, Repr

-- Cycle 1: code-quality rules (rules-engine.mjs).

/-- `no-todo`, pattern `\b(TODO|FIXME|HACK|XXX)\b`. -/
def noTodoRule : Rule :=
  { id := "no-todo"
    description := "Block TODO/FIXME/HACK/XXX comments in code"
    pattern := cat [.wordB, alts [str "TODO", str "FIXME", str "HACK", str "XXX"], .wordB]
    appliesTo := "file-write"
    fileExtensions := none
    message := "Code contains a TODO/FIXME/HACK/XXX comment. Remove placeholder comments and implement the actual logic." }

/-- `no-empty-pass`, pattern `^\s*pass\s*$` with the `m` flag. -/
def noEmptyPassRule : Rule :=
  { id := "no-empty-pass"
    description := "Block placeholder \"pass\" statements in Python"
    pattern := cat [.bolm, .star .spc, str "pass", .star .spc, .eolm]
    appliesTo := "file-write"
    fileExtensions := some [".py", ".pyi"]
    message := "Python file contains a bare \"pass\" statement. Implement the actual logic instead of using a placeholder." }

/-- `no-not-implemented`, pattern `raise\s+NotImplementedError`. -/
def noNotImplementedRule : Rule :=
  { id := "no-not-implemented"
    description := "Block NotImplementedError in Python"
    pattern := cat [str "raise", plus .spc, str "NotImplementedError"]
    appliesTo := "file-write"
    fileExtensions := some [".py", ".pyi"]
    message := "Code raises NotImplementedError. Implement the actual functionality instead of leaving a stub." }

/-- `no-ellipsis`, pattern `^\s*\.\.\.\s*$` with the `m` flag. -/
def noEllipsisRule : Rule :=
  { id := "no-ellipsis"
    description := "Block ellipsis placeholder in Python"
    pattern := cat [.bolm, .star .spc, str "...", .star .spc, .eolm]
    appliesTo := "file-write"
    fileExtensions := some [".py", ".pyi"]
    message := "Python file contains an ellipsis (...) placeholder. Implement the actual logic." }

/-- `no-placeholder-text`, pattern
`\b(placeholder|stub|mock implementation|implement\s+this|add\s+implementation\s+here|your\s+code\s+here)\b` with the `i` flag. -/
def noPlaceholderTextRule : Rule :=
  { id := "no-placeholder-text"
    description := "Block placeholder/stub text in code"
    pattern := cat [.wordB,
      alts [stri "placeholder", stri "stub", stri "mock implementation",
        phrase ["implement", "this"], phrase ["add", "implementation", "here"],
        phrase ["your", "code", "here"]],
      .wordB]
    appliesTo := "file-write"
    fileExtensions := none
    message := "Code contains placeholder/stub text. Write the complete implementation." }

/-- `no-throw-not-impl`, pattern
``throw\s+new\s+Error\s*\(\s*['"`].*not\s+implemented`` with the `i` flag. -/
def noThrowNotImplRule : Rule :=
  { id := "no-throw-not-impl"
    description := "Block \"throw new Error(not implemented)\" in JS/TS"
    pattern := cat [stri "throw", plus .spc, stri "new", plus .spc, stri "Error",
      .star .spc, .ch '(', .star .spc, quoteC, .star .dot,
      stri "not", plus .spc, stri "implemented"]
    appliesTo := "file-write"
    fileExtensions := some [".js", ".ts", ".jsx", ".tsx", ".mjs", ".cjs"]
    message := "Code throws a \"not implemented\" error. Implement the actual functionality." }

/-- `CYCLE1_RULES` of rules-engine.mjs. -/
def CYCLE1_RULES : List Rule :=
  [noTodoRule, noEmptyPassRule, noNotImplementedRule, noEllipsisRule,
   noPlaceholderTextRule, noThrowNotImplRule]

-- Cycle 2: security rules (rules-engine.mjs).

/-- `no-eval`, pattern `\beval\s*\(`. -/
def noEvalRule : Rule :=
  { id := "no-eval"
    description := "Block eval() usage"
    pattern := cat [.wordB, str "eval", .star .spc, .ch '(']
    appliesTo := "file-write"
    fileExtensions := some [".js", ".ts", ".jsx", ".tsx", ".mjs", ".cjs", ".py"]
    message := "Code uses eval(). This is a critical security risk (code injection). Use a safe alternative." }

/-- `no-exec`, pattern `\bexec\s*\(`. -/
def noExecRule : Rule :=
  { id := "no-exec"
    description := "Block exec() usage in Python"
    pattern := cat [.wordB, str "exec", .star .spc, .ch '(']
    appliesTo := "file-write"
    fileExtensions := some [".py"]
    message := "Python code uses exec(). This allows arbitrary code execution. Use a safe alternative." }

/-- `no-os-system`, pattern `\bos\.system\s*\(`. -/
def noOsSystemRule : Rule :=
  { id := "no-os-system"
    description := "Block os.system() in Python"
    pattern := cat [.wordB, str "os.system", .star .spc, .ch '(']
    appliesTo := "file-write"
    fileExtensions := some [".py"]
    message := "Python code uses os.system(). Use subprocess.run() with shell=False instead." }

/-- `no-shell-true`, pattern `shell\s*=\s*True`. -/
def noShellTrueRule : Rule :=
  { id := "no-shell-true"
    description := "Block shell=True in Python subprocess"
    pattern := cat [str "shell", .star .spc, .ch '=', .star .spc, str "True"]
    appliesTo := "file-write"
    fileExtensions := some [".py"]
    message := "Python code uses shell=True in subprocess. This enables shell injection. Use shell=False and pass args as a list." }

/-- The character class `[A-Za-z0-9+/=_\-]` of the secret-value pattern. -/
def secretChars : List Char :=
  rangeChars 'A' 'Z' ++ rangeChars 'a' 'z' ++ rangeChars '0' '9' ++ ['+', '/', '=', '_', '-']

/-- `no-hardcoded-secrets`, pattern
``(?:api[_-]?key|api[_-]?secret|password|passwd|secret[_-]?key|access[_-]?token|auth[_-]?token|private[_-]?key)\s*[:=]\s*['"`][A-Za-z0-9+/=_\-]{8,}`` with the `i` flag. -/
def noHardcodedSecretsRule : Rule :=
  { id := "no-hardcoded-secrets"
    description := "Block hardcoded API keys, passwords, and tokens"
    pattern := cat [
      alts [cat [stri "api", .opt (.cls ['_', '-']), stri "key"],
        cat [stri "api", .opt (.cls ['_', '-']), stri "secret"],
        stri "password", stri "passwd",
        cat [stri "secret", .opt (.cls ['_', '-']), stri "key"],
        cat [stri "access", .opt (.cls ['_', '-']), stri "token"],
        cat [stri "auth", .opt (.cls ['_', '-']), stri "token"],
        cat [stri "private", .opt (.cls ['_', '-']), stri "key"]],
      .star .spc, .cls [':', '='], .star .spc, quoteC,
      repAtLeast 8 (.cls secretChars)]
    appliesTo := "file-write"
    fileExtensions := none
    message := "Code contains what appears to be a hardcoded secret (API key, password, or token). Use environment variables or a secrets manager instead." }

/-- The SQL verb alternation of the `no-raw-sql` pattern (`i` flag). -/
def sqlVerbs : RE :=
  alts [stri "SELECT", stri "INSERT", stri "UPDATE", stri "DELETE",
    stri "DROP", stri "ALTER", stri "CREATE"]

/-- `no-raw-sql`, pattern
``(?:f['"`].*(?:SELECT|INSERT|UPDATE|DELETE|DROP|ALTER|CREATE)\s+.*\{|(?:SELECT|INSERT|UPDATE|DELETE|DROP|ALTER|CREATE)\s+.*(?:['"]\s*\+|\+\s*['"]|\$\{|%s|\.format\())`` with the `i` flag. -/
def noRawSqlRule : Rule :=
  { id := "no-raw-sql"
    description := "Block SQL injection via string concatenation"
    pattern := alts [
      cat [stri "f", quoteC, .star .dot, sqlVerbs, plus .spc, .star .dot, .ch lbrace],
      cat [sqlVerbs, plus .spc, .star .dot,
        alts [cat [.cls ['\'', '"'], .star .spc, .ch '+'],
          cat [.ch '+', .star .spc, .cls ['\'', '"']],
          cat [.ch '$', .ch lbrace],
          cat [.ch '%', .cls ['s', 'S']],
          cat [.ch '.', stri "format", .ch '(']]]]
    appliesTo := "file-write"
    fileExtensions := none
    message := "Code constructs SQL using string concatenation/interpolation. Use parameterized queries to prevent SQL injection." }

/-- `no-innerhtml`, pattern `\.innerHTML\s*=`. -/
def noInnerHtmlRule : Rule :=
  { id := "no-innerhtml"
    description := "Block innerHTML assignment (XSS risk)"
    pattern := cat [.ch '.', str "innerHTML", .star .spc, .ch '=']
    appliesTo := "file-write"
    fileExtensions := some [".js", ".ts", ".jsx", ".tsx", ".mjs", ".cjs", ".html"]
    message := "Code assigns to .innerHTML which enables XSS attacks. Use .textContent or a sanitization library instead." }

/-- `no-rm-rf`, pattern
`rm\s+(-[a-zA-Z]*)?r[a-zA-Z]*f[a-zA-Z]*\s+(?:\/\s|\/\*|\$HOME|\$\{HOME\}|~\/|\/root|C:\\)` with the `i` flag. -/
def noRmRfRule : Rule :=
  { id := "no-rm-rf"
    description := "Block destructive rm -rf on root or home"
    pattern := cat [stri "rm", plus .spc,
      .opt (cat [.ch '-', .star alphaC]),
      .cls ['r', 'R'], .star alphaC, .cls ['f', 'F'], .star alphaC, plus .spc,
      alts [cat [.ch '/', .spc],
        str "/*",
        cat [.ch '$', stri "HOME"],
        cat [.ch '$', .ch lbrace, stri "HOME", .ch rbrace],
        str "~/",
        cat [.ch '/', stri "root"],
        cat [stri "C", .ch ':', .ch '\\']]]
    appliesTo := "bash"
    fileExtensions := none
    message := "Command attempts destructive recursive delete on a critical path. This could destroy the system." }

/-- `no-chmod-777`, pattern `chmod\s+(?:.*\s)?777\b`. -/
def noChmod777Rule : Rule :=
  { id := "no-chmod-777"
    description := "Block world-writable permissions"
    pattern := cat [str "chmod", plus .spc, .opt (cat [.star .dot, .spc]), str "777", .wordB]
    appliesTo := "bash"
    fileExtensions := none
    message := "Command sets world-writable permissions (777). Use more restrictive permissions (e.g. 755 or 644)." }

/-- `no-curl-pipe-sh`, pattern `(?:curl|wget)\s+.*\|\s*(?:ba)?sh`. -/
def noCurlPipeShRule : Rule :=
  { id := "no-curl-pipe-sh"
    description := "Block curl/wget piped to shell execution"
    pattern := cat [alts [str "curl", str "wget"], plus .spc, .star .dot,
      .ch '|', .star .spc, .opt (str "ba"), str "sh"]
    appliesTo := "bash"
    fileExtensions := none
    message := "Command pipes downloaded content directly to a shell. Download first, inspect, then execute." }

/-- `no-insecure-url`, pattern
`http:\/\/(?!localhost|127\.0\.0\.1|0\.0\.0\.0|\[::1\])`. -/
def noInsecureUrlRule : Rule :=
  { id := "no-insecure-url"
    description := "Block non-HTTPS URLs (except localhost)"
    pattern := cat [str "http://",
      .nla (alts [str "localhost", str "127.0.0.1", str "0.0.0.0", str "[::1]"])]
    appliesTo := "web"
    fileExtensions := none
    message := "URL uses insecure HTTP instead of HTTPS. Use HTTPS for all non-localhost connections." }

/-- `CYCLE2_RULES` of rules-engine.mjs. -/
def CYCLE2_RULES : List Rule :=
  [noEvalRule, noExecRule, noOsSystemRule, noShellTrueRule, noHardcodedSecretsRule,
   noRawSqlRule, noInnerHtmlRule, noRmRfRule, noChmod777Rule, noCurlPipeShRule,
   noInsecureUrlRule]

/-- The per-rule filters of the `_runRules` loop, one conjunct per `continue`:
not disabled, context applies, and the file-extension filter
(`if (rule.fileExtensions && fileExt) { if (!...includes(fileExt)) continue }`)
does not skip, and the pattern matches the content. -/
def rulePasses (rule : Rule) (content : List Char) (fileExt context : String)
    (config : Config) : Bool :=
  !config.disabledRules.contains rule.id &&
  (rule.appliesTo == "all" || rule.appliesTo == context) &&
  !(match rule.fileExtensions with
    | some exts => fileExt != "" && !exts.contains fileExt
    | none => false) &&
  reTest rule.pattern content

/-- The `_runRules` loop of rules-engine.mjs: the rules surviving every
`continue` and matching the content, in catalog order, each emitting one
violation tagged with the category number
(`rules === CYCLE1_RULES ? 1 : 2` is passed here as `cycle`). -/
def _runRules (rules : List Rule) (cycle : Nat) (content : List Char)
    (fileExt context : String) (config : Config) : List Violation :=
  (rules.filter (fun rule => rulePasses rule content fileExt context config)).map
    (fun rule => { ruleId := rule.id, cycle := cycle, message := rule.message })

/-- `ToString(v)` for the values `_runRules` may receive as content: JavaScript
coerces `null` to the string "null" inside `RegExp.prototype.test`. -/
def jsStringOf : Option String → String
  | none => "null"
  | some s => s

/-- `runCycle1` of rules-engine.mjs. -/
def runCycle1 (content : Option String) (fileExt context : String)
    (config : Config := {}) : List Violation :=
  _runRules CYCLE1_RULES 1 (jsStringOf content).data fileExt context config

/-- `runCycle2` of rules-engine.mjs. -/
def runCycle2 (content : Option String) (fileExt context : String)
    (config : Config := {}) : List Violation :=
  _runRules CYCLE2_RULES 2 (jsStringOf content).data fileExt context config

-- Research verifier (research-verifier.mjs).

/-- `VAGUE_PATTERN`: the fourteen `VAGUE_PHRASES` with every internal blank
replaced by `\s+`, joined by `|`, `i` flag. -/
def VAGUE_PATTERN : RE :=
  alts [phrase ["studies", "show"],
    phrase ["research", "indicates"],
    phrase ["experts", "say"],
    phrase ["according", "to", "research"],
    phrase ["data", "suggests"],
    phrase ["it", "is", "known", "that"],
    phrase ["generally", "accepted"],
    phrase ["industry", "reports"],
    phrase ["recent", "surveys"],
    phrase ["analysts", "estimate"],
    phrase ["sources", "suggest"],
    phrase ["widely", "reported"],
    phrase ["it", "has", "been", "shown"],
    phrase ["evidence", "suggests"]]

/-- `CLAIM_PATTERNS`, in source order:
percentages, multipliers, n-fold, grouped quantities, dollar amounts,
study references, institution names, comparative claims, year claims. -/
def CLAIM_PATTERNS : List RE :=
  [cat [plus digitC, .opt (cat [.ch '.', plus digitC]), .star .spc, .ch '%'],
   cat [plus digitC, .opt (cat [.ch '.', plus digitC]), .ch 'x', .wordB],
   cat [plus digitC, .ch '-', stri "fold", .wordB],
   cat [.wordB, .seq digitC (.opt (.seq digitC (.opt digitC))),
     plus (cat [.ch ',', repN 3 digitC]), .wordB],
   cat [.ch '$', .star .spc, plus digitC, .opt (cat [.ch '.', plus digitC]), .star .spc,
     alts [stri "million", stri "billion", stri "trillion",
       .cls ['M', 'B', 'T', 'm', 'b', 't']], .wordB],
   cat [.wordB, alts [stri "study", stri "survey", stri "report"], plus .spc,
     alts [stri "by", stri "from", stri "at"], .wordB],
   cat [.wordB, .cls (rangeChars 'A' 'Z'), plus (.cls (rangeChars 'a' 'z')), plus .spc,
     alts [str "University", str "Institute", str "Lab"], .wordB],
   cat [.wordB, plus digitC, .opt (cat [.ch '.', plus digitC]), .star .spc, stri "times",
     plus .spc,
     alts [stri "more", stri "less", stri "faster", stri "slower", stri "higher",
       stri "lower", stri "greater", stri "better", stri "worse"], .wordB],
   cat [.wordB, alts [stri "in", stri "since", stri "by", stri "from"], plus .spc,
     repN 4 digitC, .wordB]]

/-- `SOURCE_PATTERNS`, in source order: markdown link, bare URL, bracketed
`[Source:]`/`[Ref:]`/`[Verified:]` marker. -/
def SOURCE_PATTERNS : List RE :=
  [cat [.ch '[', .lazyStar .dot, .ch ']', .ch '(', str "http", .opt (.ch 's'),
     str "://", plus (.nspc [')']), .ch ')'],
   cat [str "http", .opt (.ch 's'), str "://", plus (.nspc [')', '>', ']'])],
   cat [.ch '[', alts [stri "Source", stri "Ref", stri "Verified"], .opt (.ch ':'),
     .star (.ncls [']']), .ch ']']]

/-- `VERIFICATION_TAG`. -/
def VERIFICATION_TAG : String := "<!-- PERPLEXITY_VERIFIED -->"

/-- `SOURCE_PROXIMITY`. -/
def SOURCE_PROXIMITY : Nat := 300

/-- The message of the `no-vague-claims` rule (CYCLE4_RULES[0]). -/
def noVagueClaimsMsg : String :=
  "Research file contains vague language (e.g. \"studies show\", \"experts say\"). Replace with specific, sourced claims: name the study, author, institution, and year, then link the source."

/-- The message of the `no-unverified-claims` rule (CYCLE4_RULES[1]). -/
def noUnverifiedClaimsMsg : String :=
  "Research file contains statistical or factual claims but is missing the <!-- PERPLEXITY_VERIFIED --> tag. Verify all claims using Perplexity MCP tools and add the tag to confirm verification."

/-- The message of the `no-unsourced-claims` rule (CYCLE4_RULES[2]). -/
def noUnsourcedClaimsMsg : String :=
  "Research file has the PERPLEXITY_VERIFIED tag but some claims lack a source URL within 300 characters. Add a markdown link, bare URL, or [Source:]/[Ref:]/[Verified:] marker near each claim."

/-- An extracted claim `{text, index}`. -/
structure ClaimSpan where
  text : List Char
  index : Nat
deriving DecidableEq, Repr

/-- `extractClaims`: all global matches of every claim pattern, in pattern
order, deduplicated on the `(index, text)` key exactly like the
`${match.index}:${match[0]}` strings of the source's `seen` set. -/
def extractClaims (content : List Char) : List ClaimSpan :=
  (CLAIM_PATTERNS.foldl
    (fun acc p =>
      (matchesOf p content).foldl
        (fun acc m =>
          if acc.1.contains (m.1, m.2) then acc
          else ((m.1, m.2) :: acc.1, acc.2 ++ [{ text := m.2, index := m.1 }]))
        acc)
    ([], [])).2

/-- `hasNearbySource`: some source pattern matches inside
`content.slice(max(0, claimIndex - 300), min(content.length, claimIndex + 300))`. -/
def hasNearbySource (content : List Char) (claimIndex : Nat) : Bool :=
  let start := claimIndex - SOURCE_PROXIMITY
  let stop := min content.length (claimIndex + SOURCE_PROXIMITY)
  let window := (content.drop start).take (stop - start)
  SOURCE_PATTERNS.any (fun p => reTest p window)

/-- The violation pushed by Pass 1 when the vague-language pattern matched
the text `found`. -/
def vagueViolation (found : List Char) : Violation :=
  { ruleId := "no-vague-claims", cycle := 4,
    message := noVagueClaimsMsg ++ "\n\nFound: \"" ++ String.mk found ++ "\"" }

/-- The violation pushed when `n` claims lack the verification tag. -/
def unverifiedViolation (n : Nat) : Violation :=
  { ruleId := "no-unverified-claims", cycle := 4,
    message := noUnverifiedClaimsMsg ++ "\n\nFound " ++ toString n
      ++ " claim(s) without verification tag." }

/-- The violation pushed when `n` claims lack a nearby source. -/
def unsourcedViolation (n : Nat) : Violation :=
  { ruleId := "no-unsourced-claims", cycle := 4,
    message := noUnsourcedClaimsMsg ++ "\n\nFound " ++ toString n
      ++ " unsourced claim(s)." }

/-- Pass 2 of `runCycle4`: claim extraction, the `PERPLEXITY_VERIFIED` tag
check, and the source-proximity check. -/
def runCycle4Pass2 (cs : List Char) (disabledRules : List String) : List Violation :=
  let claims := extractClaims cs
  if claims.length = 0 then [] else
  let hasVerificationTag := includesSub cs VERIFICATION_TAG.data
  if !hasVerificationTag && !disabledRules.contains "no-unverified-claims" then
    [unverifiedViolation claims.length]
  else if hasVerificationTag && !disabledRules.contains "no-unsourced-claims" then
    let unsourced := claims.filter (fun claim => !hasNearbySource cs claim.index)
    if unsourced.length > 0 then
      [unsourcedViolation unsourced.length]
    else []
  else []

/-- `runCycle4` of research-verifier.mjs.  A non-string content
(`null`/`undefined`) is `none`; `!content` also rejects the empty string.
The file-path argument of the source is accepted and, as there, unused. -/
def runCycle4 (content : Option String) (_filePath : String := "")
    (config : Config := {}) : List Violation :=
  let disabledRules := config.disabledRules
  match content with
  | none => []
  | some str =>
    if str = "" then [] else
    let cs := str.data
    if !disabledRules.contains "no-vague-claims" then
      match execFrom VAGUE_PATTERN cs 0 with
      | some (i, e) => [vagueViolation ((cs.drop i).take (e - i))]
      | none => runCycle4Pass2 cs disabledRules
    else runCycle4Pass2 cs disabledRules

-- Shared utilities (utils.mjs).

/-- `lastIndexOf` on a character list, as `String.prototype.lastIndexOf`. -/
def lastIndexOf (cs : List Char) (c : Char) : Option Nat :=
  match cs.reverse.findIdx? (· == c) with
  | some k => some (cs.length - 1 - k)
  | none => none

/-- Lower-case every character (ASCII fragment of `toLowerCase`). -/
def toLowerList (cs : List Char) : List Char := cs.map toLowerChar

/-- `getFileExtension` of utils.mjs: the substring from the last dot,
lower-cased; empty when there is no dot or the dot is last. -/
def getFileExtension (filePath : String) : String :=
  if filePath = "" then "" else
  let cs := filePath.data
  match lastIndexOf cs '.' with
  | none => ""
  | some lastDot =>
    if lastDot = cs.length - 1 then ""
    else String.mk (toLowerList (cs.drop lastDot))

/-- Backslash-to-slash normalization, `filePath.replace(/\\/g, '/')`. -/
def replaceBackslashes (cs : List Char) : List Char :=
  cs.map (fun c => if c = '\\' then '/' else c)

/-- The `.md` suffix test on the normalized path. -/
def endsWithList (s suffix : List Char) : Bool :=
  suffix == s.drop (s.length - suffix.length)

/-- `normalized.split('/').pop() || ''`. -/
def lastSegment (cs : List Char) : List Char :=
  ((cs.splitOn '/').getLast?).getD []

/-- `isResearchFile` of utils.mjs: normalize separators and case, require the
`.md` suffix, then look for a `/research/` segment or "research" in the
filename. -/
def isResearchFile (filePath : String) : Bool :=
  if filePath = "" then false else
  let normalized := toLowerList (replaceBackslashes filePath.data)
  if !endsWithList normalized ".md".data then false else
  let fileName := lastSegment normalized
  includesSub normalized "/research/".data || includesSub fileName "research".data

-- Dispatch (pre-tool-gate.mjs).

/-- The routing of pre-tool-gate.mjs for an operation whose extracted payload
is non-empty: research files go to Cycle 4 alone when
`config.cycle4?.enabled !== false`; everything else gets Cycle 1 followed by
Cycle 2. -/
def allViolations (content : String) (fileExt context filePath : String)
    (config : Config) : List Violation :=
  if isResearchFile filePath && config.cycle4Enabled then
    runCycle4 (some content) filePath config
  else
    runCycle1 (some content) fileExt context config
      ++ runCycle2 (some content) fileExt context config

-- Analysis helpers (for the theorems below; not part of the sources).

/-- `consumes P r = true` guarantees that every successful match of `r`
consumes at least one character satisfying `P`: a sufficient syntactic check,
conservative (`false`) on quantifiers, assertions and negated classes. -/
def consumes (P : Char → Bool) : RE → Bool
  | .eps => false
  | .ch c => P c
  | .cls l => l.all P
  | .ncls _ => false
  | .nspc _ => false
  | .spc => false
  | .dot => false
  | .seq a b => consumes P a || consumes P b
  | .alt a b => consumes P a && consumes P b
  | .star _ => false
  | .lazyStar _ => false
  | .opt _ => false
  | .wordB => false
  | .bolm => false
  | .eolm => false
  | .nla _ => false

/-- Characters that are not ECMAScript whitespace. -/
def notSpace (c : Char) : Bool := !jsSpace c

/-- The rule identifiers of the two rule-engine catalogs. -/
def engineRuleIds : List String := (CYCLE1_RULES ++ CYCLE2_RULES).map Rule.id

-- Concrete documents pinning the source-proximity window boundaries.
-- Each has the verification tag, exactly one claim ("45%") and exactly one
-- source ("[Ref: x]"), placed at a controlled distance from the claim.

/-- Filler of `n` characters that match no claim, vague or source pattern. -/
def filler (n : Nat) : List Char := List.replicate n 'q'

/-- Tag, newline, claim "45%" at index 29, then the source starting at index
329 = 29 + 300. -/
def docSourcePlus300 : String :=
  String.mk (VERIFICATION_TAG.data ++ '\n' :: "45%".data ++ filler 297 ++ "[Ref: x]".data)

/-- Tag, newline, claim "45%" at index 29, then the source starting at index
330 = 29 + 301. -/
def docSourcePlus301 : String :=
  String.mk (VERIFICATION_TAG.data ++ '\n' :: "45%".data ++ filler 298 ++ "[Ref: x]".data)

/-- Source at index 0, claim "45%" at index 300 = 0 + 300, then the tag. -/
def docSourceMinus300 : String :=
  String.mk ("[Ref: x]".data ++ filler 292 ++ "45%".data ++ '\n' :: VERIFICATION_TAG.data)

/-- Source at index 0, claim "45%" at index 301 = 0 + 301, then the tag. -/
def docSourceMinus301 : String :=
  String.mk ("[Ref: x]".data ++ filler 293 ++ "45%".data ++ '\n' :: VERIFICATION_TAG.data)

-- Generic lemmas about the matcher.

/-- The remaining input of any state reached by a match is a suffix of the
remaining input matching started from. -/
theorem ends_suffix :
    ∀ (fuel : Nat) (r : RE) (p q : MPos), q ∈ ends fuel r p → q.rest.IsSuffix p.rest := by
  intro fuel
  induction fuel with
  | zero =>
    intro r p q hq
    simp [ends] at hq
  | succ fuel ih =>
    intro r p q hq
    cases r with
    | eps =>
      simp [ends] at hq
      rw [hq]
    | ch c =>
      simp only [ends] at hq
      cases hrest : p.rest with
      | nil => rw [hrest] at hq; simp at hq
      | cons d rest =>
        rw [hrest] at hq
        simp at hq
        rw [hq.2]
        exact ⟨[d], rfl⟩
    | cls l =>
      simp only [ends] at hq
      cases hrest : p.rest with
      | nil => rw [hrest] at hq; simp at hq
      | cons d rest =>
        rw [hrest] at hq
        simp at hq
        rw [hq.2]
        exact ⟨[d], rfl⟩
    | ncls l =>
      simp only [ends] at hq
      cases hrest : p.rest with
      | nil => rw [hrest] at hq; simp at hq
      | cons d rest =>
        rw [hrest] at hq
        simp at hq
        rw [hq.2]
        exact ⟨[d], rfl⟩
    | nspc extra =>
      simp only [ends] at hq
      cases hrest : p.rest with
      | nil => rw [hrest] at hq; simp at hq
      | cons d rest =>
        rw [hrest] at hq
        simp at hq
        rw [hq.2]
        exact ⟨[d], rfl⟩
    | spc =>
      simp only [ends] at hq
      cases hrest : p.rest with
      | nil => rw [hrest] at hq; simp at hq
      | cons d rest =>
        rw [hrest] at hq
        simp at hq
        rw [hq.2]
        exact ⟨[d], rfl⟩
    | dot =>
      simp only [ends] at hq
      cases hrest : p.rest with
      | nil => rw [hrest] at hq; simp at hq
      | cons d rest =>
        rw [hrest] at hq
        simp at hq
        rw [hq.2]
        exact ⟨[d], rfl⟩
    | seq a b =>
      simp only [ends, List.mem_flatMap] at hq
      obtain ⟨m, hm, hqb⟩ := hq
      exact (ih b m q hqb).trans (ih a p m hm)
    | alt a b =>
      simp only [ends, List.mem_append] at hq
      rcases hq with hqa | hqb
      · exact ih a p q hqa
      · exact ih b p q hqb
    | star r =>
      simp only [ends, List.mem_append, List.mem_flatMap, List.mem_filter] at hq
      rcases hq with ⟨m, ⟨hm, _⟩, hq'⟩ | hq'
      · exact (ih (.star r) m q hq').trans (ih r p m hm)
      · simp at hq'
        rw [hq']
    | lazyStar r =>
      simp only [ends, List.mem_cons, List.mem_flatMap, List.mem_filter] at hq
      rcases hq with hq' | ⟨m, ⟨hm, _⟩, hq'⟩
      · rw [hq']
      · exact (ih (.lazyStar r) m q hq').trans (ih r p m hm)
    | opt r =>
      simp only [ends, List.mem_append] at hq
      rcases hq with hqa | hq'
      · exact ih r p q hqa
      · simp at hq'
        rw [hq']
    | wordB =>
      simp only [ends] at hq
      split at hq
      · simp at hq
        rw [hq]
      · simp at hq
    | bolm =>
      simp only [ends] at hq
      cases hprev : p.prev with
      | none =>
        rw [hprev] at hq
        simp at hq
        rw [hq]
      | some d =>
        rw [hprev] at hq
        simp at hq
        rcases hq with ⟨-, h⟩
        subst h
        exact List.suffix_refl _
    | eolm =>
      simp only [ends] at hq
      cases hrest : p.rest with
      | nil =>
        rw [hrest] at hq
        simp at hq
        rw [hq, hrest]
      | cons d rest =>
        rw [hrest] at hq
        simp at hq
        rcases hq with ⟨-, h⟩
        rw [h, hrest]
    | nla r =>
      simp only [ends] at hq
      split at hq
      · simp at hq
        rw [hq]
      · simp at hq

/-- Any match of a regex for which `consumes P` holds consumes a character
satisfying `P` from the remaining input. -/
theorem consumes_sound {P : Char → Bool} :
    ∀ (fuel : Nat) (r : RE), consumes P r = true →
      ∀ (p q : MPos), q ∈ ends fuel r p → ∃ c ∈ p.rest, P c = true := by
  intro fuel
  induction fuel with
  | zero =>
    intro r _ p q hq
    simp [ends] at hq
  | succ fuel ih =>
    intro r hr p q hq
    cases r with
    | eps => simp [consumes] at hr
    | ch c =>
      simp only [ends] at hq
      cases hrest : p.rest with
      | nil => rw [hrest] at hq; simp at hq
      | cons d rest =>
        rw [hrest] at hq
        simp at hq
        exact ⟨d, by simp [hrest], by rw [hq.1]; exact hr⟩
    | cls l =>
      simp only [ends] at hq
      cases hrest : p.rest with
      | nil => rw [hrest] at hq; simp at hq
      | cons d rest =>
        rw [hrest] at hq
        simp at hq
        exact ⟨d, by simp [hrest], List.all_eq_true.mp hr d hq.1⟩
    | ncls l => simp [consumes] at hr
    | nspc extra => simp [consumes] at hr
    | spc => simp [consumes] at hr
    | dot => simp [consumes] at hr
    | seq a b =>
      simp only [ends, List.mem_flatMap] at hq
      obtain ⟨m, hm, hqb⟩ := hq
      have hor : consumes P a = true ∨ consumes P b = true := by simpa [consumes] using hr
      rcases hor with hca | hcb
      · exact ih a hca p m hm
      · obtain ⟨c, hc, hPc⟩ := ih b hcb m q hqb
        exact ⟨c, (ends_suffix fuel a p m hm).subset hc, hPc⟩
    | alt a b =>
      simp only [ends, List.mem_append] at hq
      have hab : consumes P a = true ∧ consumes P b = true := by simpa [consumes] using hr
      rcases hq with hqa | hqb
      · exact ih a hab.1 p q hqa
      · exact ih b hab.2 p q hqb
    | star r => simp [consumes] at hr
    | lazyStar r => simp [consumes] at hr
    | opt r => simp [consumes] at hr
    | wordB => simp [consumes] at hr
    | bolm => simp [consumes] at hr
    | eolm => simp [consumes] at hr
    | nla r => simp [consumes] at hr

/-- If no character of the remaining input satisfies `P` and `r` must consume
one, `r` has no match at this state. -/
theorem ends_eq_nil_of_consumes {P : Char → Bool} {r : RE}
    (h : consumes P r = true) {p : MPos}
    (hs : ∀ c ∈ p.rest, P c = false) (fuel : Nat) :
    ends fuel r p = [] := by
  rw [List.eq_nil_iff_forall_not_mem]
  intro q hq
  obtain ⟨c, hc, hPc⟩ := consumes_sound fuel r h p q hq
  rw [hs c hc] at hPc
  exact Bool.false_ne_true hPc

/-- See `ends_eq_nil_of_consumes`. -/
theorem scan_eq_none_of_consumes {P : Char → Bool} {r : RE}
    (h : consumes P r = true) {s : List Char}
    (hs : ∀ c ∈ s, P c = false) (fuel : Nat) :
    ∀ (steps : Nat) (p : MPos), (∀ c ∈ p.rest, c ∈ s) → scan r fuel steps p = none := by
  intro steps
  induction steps with
  | zero => intro p _; rfl
  | succ n ihn =>
    intro p hp
    have hnil : ends fuel r p = [] :=
      ends_eq_nil_of_consumes h (fun c hc => hs c (hp c hc)) fuel
    simp only [scan, hnil, List.head?_nil]
    cases hrest : p.rest with
    | nil => rfl
    | cons c rest =>
      exact ihn _ (fun c' hc' => hp c' (by rw [hrest]; exact List.mem_cons_of_mem _ hc'))

/-- See `ends_eq_nil_of_consumes`. -/
theorem execFrom_eq_none_of_consumes {P : Char → Bool} {r : RE}
    (h : consumes P r = true) {s : List Char}
    (hs : ∀ c ∈ s, P c = false) (start : Nat) :
    execFrom r s start = none := by
  unfold execFrom
  exact scan_eq_none_of_consumes h hs _ _ _ (fun c hc => List.drop_subset _ _ hc)

/-- See `ends_eq_nil_of_consumes`. -/
theorem reTest_eq_false_of_consumes {P : Char → Bool} {r : RE}
    (h : consumes P r = true) {s : List Char}
    (hs : ∀ c ∈ s, P c = false) :
    reTest r s = false := by
  unfold reTest
  rw [execFrom_eq_none_of_consumes h hs]
  rfl

/-- See `ends_eq_nil_of_consumes`. -/
theorem matchesOf_eq_nil_of_consumes {P : Char → Bool} {r : RE}
    (h : consumes P r = true) {s : List Char}
    (hs : ∀ c ∈ s, P c = false) :
    matchesOf r s = [] := by
  unfold matchesOf execAll
  rw [execFrom_eq_none_of_consumes h hs]

/-- A successful scan exhibits a match of the regex from a state whose
remaining input draws from `s`. -/
theorem exists_mem_ends_of_scan {r : RE} {fuel : Nat} {s : List Char} :
    ∀ (steps : Nat) (p : MPos) (res : Nat × Nat), (∀ c ∈ p.rest, c ∈ s) →
      scan r fuel steps p = some res →
      ∃ (p' q : MPos), (∀ c ∈ p'.rest, c ∈ s) ∧ q ∈ ends fuel r p' := by
  intro steps
  induction steps with
  | zero =>
    intro p res _ hscan
    exact absurd hscan (by simp [scan])
  | succ n ihn =>
    intro p res hp hscan
    simp only [scan] at hscan
    cases hh : (ends fuel r p).head? with
    | some q =>
      exact ⟨p, q, hp, List.mem_of_mem_head? (by rw [hh]; rfl)⟩
    | none =>
      rw [hh] at hscan
      cases hrest : p.rest with
      | nil => rw [hrest] at hscan; exact absurd hscan (by simp)
      | cons c rest =>
        rw [hrest] at hscan
        exact ihn _ res
          (fun c' hc' => hp c' (by rw [hrest]; exact List.mem_cons_of_mem _ hc')) hscan

/-- A string matched by a regex that must consume a character is nonempty. -/
theorem ne_nil_of_reTest {r : RE} {s : List Char}
    (hc : consumes (fun _ => true) r = true) (h : reTest r s = true) :
    s ≠ [] := by
  intro hnil
  unfold reTest at h
  cases he : execFrom r s 0 with
  | none => rw [he] at h; exact Bool.false_ne_true h
  | some res =>
    unfold execFrom at he
    obtain ⟨p', q, hinv, hq⟩ := exists_mem_ends_of_scan _ _ res
      (fun c hcm => List.drop_subset _ _ hcm) he
    obtain ⟨c, hcrest, _⟩ := consumes_sound _ r hc p' q hq
    have := hinv c hcrest
    rw [hnil] at this
    simp at this

-- Lemmas about the rule-engine loop.

/-- Membership characterization of the `_runRules` output: exactly the
catalog rules that pass every filter and match the content. -/
theorem mem_runRules {rules : List Rule} {cycle : Nat} {content : List Char}
    {fileExt context : String} {config : Config} {v : Violation} :
    v ∈ _runRules rules cycle content fileExt context config ↔
      ∃ rule, rule ∈ rules ∧ rulePasses rule content fileExt context config = true ∧
        v = { ruleId := rule.id, cycle := cycle, message := rule.message } := by
  unfold _runRules
  simp only [List.mem_map, List.mem_filter]
  constructor
  · rintro ⟨rule, ⟨hmem, hp⟩, rfl⟩
    exact ⟨rule, hmem, hp, rfl⟩
  · rintro ⟨rule, hmem, hp, rfl⟩
    exact ⟨rule, ⟨hmem, hp⟩, rfl⟩

/-- Every violation of `_runRules` carries the cycle tag it was called with. -/
theorem runRules_cycle {rules : List Rule} {cycle : Nat} {content : List Char}
    {fileExt context : String} {config : Config} :
    (_runRules rules cycle content fileExt context config).all
      (fun v => v.cycle == cycle) = true := by
  rw [List.all_eq_true]
  intro v hv
  obtain ⟨rule, _, _, rfl⟩ := mem_runRules.mp hv
  simp

/-- If no rule pattern matches the content, `_runRules` returns nothing. -/
theorem runRules_eq_nil {rules : List Rule} {cycle : Nat} {content : List Char}
    {fileExt context : String} {config : Config}
    (h : ∀ rule ∈ rules, reTest rule.pattern content = false) :
    _runRules rules cycle content fileExt context config = [] := by
  rw [List.eq_nil_iff_forall_not_mem]
  intro v hv
  obtain ⟨rule, hmem, hp, _⟩ := mem_runRules.mp hv
  have := h rule hmem
  simp [rulePasses, this] at hp

/-- A disabled rule id never appears among the emitted rule ids. -/
theorem runRules_disabled {rules : List Rule} {cycle : Nat} {content : List Char}
    {fileExt context : String} {config : Config} {r : String}
    (h : config.disabledRules.contains r = true) :
    ((_runRules rules cycle content fileExt context config).map
      Violation.ruleId).contains r = false := by
  have hnot : r ∉ (_runRules rules cycle content fileExt context config).map
      Violation.ruleId := by
    intro hmem
    obtain ⟨v, hv, hrid⟩ := List.mem_map.mp hmem
    obtain ⟨rule, _, hp, rfl⟩ := mem_runRules.mp hv
    simp [rulePasses] at hp
    rw [show rule.id = r from hrid] at hp
    simp at h
    exact hp.1.1.1 h
  cases hb : ((_runRules rules cycle content fileExt context config).map
      Violation.ruleId).contains r with
  | false => rfl
  | true =>
    simp at hb
    obtain ⟨v, hv, hrid⟩ := hb
    exact absurd (List.mem_map.mpr ⟨v, hv, hrid⟩) hnot

-- Lemmas about the shape of the research-verifier output.

/-- Pass 2 yields nothing or a single enabled violation of cycle 4. -/
theorem runCycle4Pass2_shape (cs : List Char) (disabled : List String) :
    runCycle4Pass2 cs disabled = [] ∨
      ∃ v, runCycle4Pass2 cs disabled = [v] ∧ v.cycle = 4 ∧
        disabled.contains v.ruleId = false ∧
        (v.ruleId = "no-unverified-claims" ∨ v.ruleId = "no-unsourced-claims") := by
  by_cases h0 : (extractClaims cs).length = 0
  · exact Or.inl (by simp [runCycle4Pass2, h0])
  · by_cases htag : includesSub cs VERIFICATION_TAG.data = true
    · by_cases hd3 : "no-unsourced-claims" ∈ disabled
      · exact Or.inl (by simp [runCycle4Pass2, h0, htag, hd3])
      · by_cases hun :
          0 < ((extractClaims cs).filter (fun claim => !hasNearbySource cs claim.index)).length
        · refine Or.inr ⟨unsourcedViolation
            ((extractClaims cs).filter (fun claim => !hasNearbySource cs claim.index)).length,
            ?_, rfl, ?_, Or.inr rfl⟩
          · simp [runCycle4Pass2, h0, htag, hd3, hun]
          · simpa [unsourcedViolation] using hd3
        · exact Or.inl (by simp [runCycle4Pass2, h0, htag, hd3, hun])
    · by_cases hd2 : "no-unverified-claims" ∈ disabled
      · exact Or.inl (by simp [runCycle4Pass2, h0, htag, hd2])
      · refine Or.inr ⟨unverifiedViolation (extractClaims cs).length,
          ?_, rfl, ?_, Or.inl rfl⟩
        · simp [runCycle4Pass2, h0, htag, hd2]
        · simpa [unverifiedViolation] using hd2

/-- `runCycle4` yields nothing or a single enabled violation of cycle 4 whose
rule id is one of the three research rules. -/
theorem runCycle4_shape (c : Option String) (fp : String) (cfg : Config) :
    runCycle4 c fp cfg = [] ∨
      ∃ v, runCycle4 c fp cfg = [v] ∧ v.cycle = 4 ∧
        cfg.disabledRules.contains v.ruleId = false ∧
        (v.ruleId = "no-vague-claims" ∨ v.ruleId = "no-unverified-claims" ∨
          v.ruleId = "no-unsourced-claims") := by
  cases c with
  | none => exact Or.inl rfl
  | some str =>
    by_cases hemp : str = ""
    · exact Or.inl (by simp [runCycle4, hemp])
    · by_cases hd1 : "no-vague-claims" ∈ cfg.disabledRules
      · rcases runCycle4Pass2_shape str.data cfg.disabledRules with hnil | ⟨v, hv, h4, hd, hid⟩
        · exact Or.inl (by simp [runCycle4, hemp, hd1, hnil])
        · refine Or.inr ⟨v, ?_, h4, hd, Or.inr hid⟩
          simp [runCycle4, hemp, hd1, hv]
      · cases hexec : execFrom VAGUE_PATTERN str.data 0 with
        | none =>
          rcases runCycle4Pass2_shape str.data cfg.disabledRules with hnil | ⟨v, hv, h4, hd, hid⟩
          · exact Or.inl (by simp [runCycle4, hemp, hd1, hexec, hnil])
          · refine Or.inr ⟨v, ?_, h4, hd, Or.inr hid⟩
            simp [runCycle4, hemp, hd1, hexec, hv]
        | some p =>
          refine Or.inr ⟨vagueViolation ((str.data.drop p.1).take (p.2 - p.1)),
            ?_, rfl, ?_, Or.inl rfl⟩
          · simp [runCycle4, hemp, hd1, hexec]
          · simpa [vagueViolation] using hd1

/-- When the marker lookup is reached (claims exist), the
`no-unverified-claims` violation appears exactly when the literal tag is
absent. -/
theorem runCycle4Pass2_unverified (cs : List Char) (disabled : List String)
    (h0 : (extractClaims cs).length ≠ 0)
    (hdis : "no-unverified-claims" ∉ disabled) :
    ((runCycle4Pass2 cs disabled).map Violation.ruleId).contains "no-unverified-claims"
      = !includesSub cs VERIFICATION_TAG.data := by
  by_cases htag : includesSub cs VERIFICATION_TAG.data = true
  · rw [htag]
    by_cases hd3 : "no-unsourced-claims" ∈ disabled
    · simp [runCycle4Pass2, h0, htag, hd3]
    · by_cases hun :
        0 < ((extractClaims cs).filter (fun claim => !hasNearbySource cs claim.index)).length
      · simp [runCycle4Pass2, h0, htag, hd3, hun, unsourcedViolation]
      · simp [runCycle4Pass2, h0, htag, hd3, hun]
  · rw [Bool.not_eq_true] at htag
    rw [htag]
    simp [runCycle4Pass2, h0, htag, hdis, unverifiedViolation]

-- The claims.

/-- C1: Dispatch/merge semantics.  For any operation with extractable
content: when the target path is classified as a research file and the
research category is enabled, the merged list is exactly the `runCycle4`
output, and that output never contains a code-quality or security violation
(every violation it can emit has cycle 4 and a rule id outside both engine
catalogs); otherwise the merged list is the `runCycle1` violations followed
by the `runCycle2` violations, quality (cycle 1) before security (cycle 2). -/
theorem c1_dispatch_merge (content fileExt context filePath : String) (config : Config) :
    (allViolations content fileExt context filePath config =
      if isResearchFile filePath && config.cycle4Enabled then
        runCycle4 (some content) filePath config
      else
        runCycle1 (some content) fileExt context config
          ++ runCycle2 (some content) fileExt context config) ∧
    (runCycle4 (some content) filePath config).all
      (fun v => v.cycle == 4 && !engineRuleIds.contains v.ruleId) = true ∧
    (runCycle1 (some content) fileExt context config).all (fun v => v.cycle == 1) = true ∧
    (runCycle2 (some content) fileExt context config).all (fun v => v.cycle == 2) = true := by
  refine ⟨rfl, ?_, runRules_cycle, runRules_cycle⟩
  rcases runCycle4_shape (some content) filePath config with hnil | ⟨v, hv, h4, _, hid⟩
  · rw [hnil]; rfl
  · rw [hv]
    simp only [List.all_cons, List.all_nil, Bool.and_true]
    rw [h4]
    rcases hid with h | h | h <;> rw [h] <;> decide

/-- C2 (code bug): `evaluate("rm -rf /", "", shell-command, {}, Security)`
yields no violation at all: the alternation
`\/\s|\/\*|\$HOME|\$\{HOME\}|~\/|\/root|C:\\` of the `no-rm-rf` pattern
requires a character after the slash, so the bare command `rm -rf /`
(no trailing whitespace) does not match, although the repository's docs and
its gate test expect it to be blocked; the same command with a trailing
blank does match. -/
theorem c2_rm_rf_root_escapes :
    runCycle2 (some "rm -rf /") "" "bash" {} = [] ∧
    (runCycle2 (some "rm -rf / ") "" "bash" {}).map Violation.ruleId = ["no-rm-rf"] := by
  constructor
  · decide
  · decide

/-- C3: Vague-language short-circuit.  Whenever the content matches the
vague-phrase pattern and `no-vague-claims` is not disabled, `runCycle4`
returns exactly one violation, whose rule id is `no-vague-claims`, no matter
what claims the content also contains. -/
theorem c3_vague_short_circuit (content filePath : String) (config : Config)
    (hmatch : reTest VAGUE_PATTERN content.data = true)
    (hdis : config.disabledRules.contains "no-vague-claims" = false) :
    (runCycle4 (some content) filePath config).map Violation.ruleId
      = ["no-vague-claims"] := by
  have hne : content.data ≠ [] := ne_nil_of_reTest (by decide) hmatch
  have hemp : ¬content = "" := fun h => hne (by rw [h])
  unfold reTest at hmatch
  cases hexec : execFrom VAGUE_PATTERN content.data 0 with
  | none => rw [hexec] at hmatch; exact absurd hmatch (by simp)
  | some p =>
    obtain ⟨i, e⟩ := p
    have hd1 : "no-vague-claims" ∉ config.disabledRules := by simpa using hdis
    simp [runCycle4, hemp, hd1, hexec, vagueViolation]

/-- C4: Marker exactness.  For a document with at least one extractable claim
and no vague-language match, when `no-unverified-claims` is enabled the
output of `runCycle4` contains the `no-unverified-claims` violation exactly
when the content does not contain the literal substring
`<!-- PERPLEXITY_VERIFIED -->`; the check is the literal `includes`, so any
near-miss variant fails it (see the witness, which uses the space-for-
underscore variant). -/
theorem c4_marker_exactness (content filePath : String) (config : Config)
    (hclaims : (extractClaims content.data).length ≠ 0)
    (hvague : reTest VAGUE_PATTERN content.data = false)
    (hdis : config.disabledRules.contains "no-unverified-claims" = false) :
    ((runCycle4 (some content) filePath config).map Violation.ruleId).contains
        "no-unverified-claims"
      = !includesSub content.data VERIFICATION_TAG.data := by
  have hne : content.data ≠ [] := fun h => hclaims (by simp only [h]; decide)
  have hemp : ¬content = "" := fun h => hne (by rw [h])
  have hdis' : "no-unverified-claims" ∉ config.disabledRules := by simpa using hdis
  by_cases hd1 : "no-vague-claims" ∈ config.disabledRules
  · rw [show runCycle4 (some content) filePath config
        = runCycle4Pass2 content.data config.disabledRules from by
      simp [runCycle4, hemp, hd1]]
    exact runCycle4Pass2_unverified _ _ hclaims hdis'
  · cases hexec : execFrom VAGUE_PATTERN content.data 0 with
    | some p =>
      rw [show execFrom VAGUE_PATTERN content.data 0 = none from ?_] at hexec
      · exact absurd hexec (by simp)
      · unfold reTest at hvague
        cases he : execFrom VAGUE_PATTERN content.data 0 with
        | none => rfl
        | some q => rw [he] at hvague; exact absurd hvague (by simp)
    | none =>
      rw [show runCycle4 (some content) filePath config
          = runCycle4Pass2 content.data config.disabledRules from by
        simp [runCycle4, hemp, hd1, hexec]]
      exact runCycle4Pass2_unverified _ _ hclaims hdis'

/-- C6: Disabling is exhaustive.  A rule id appearing in `disabledRules`
never appears among the rule ids emitted by `runCycle1`, `runCycle2` or
`runCycle4`, for every content (including `null`), extension, context, path
and configuration. -/
theorem c6_disabling_exhaustive (r : String) (content : Option String)
    (fileExt context filePath : String) (config : Config)
    (h : config.disabledRules.contains r = true) :
    ((runCycle1 content fileExt context config).map Violation.ruleId).contains r = false ∧
    ((runCycle2 content fileExt context config).map Violation.ruleId).contains r = false ∧
    ((runCycle4 content filePath config).map Violation.ruleId).contains r = false := by
  refine ⟨runRules_disabled h, runRules_disabled h, ?_⟩
  rcases runCycle4_shape content filePath config with hnil | ⟨v, hv, _, hd, _⟩
  · rw [hnil]; rfl
  · rw [hv]
    have hne : ¬(r = v.ruleId) := by
      intro he
      rw [← he] at hd
      rw [h] at hd
      exact Bool.false_ne_true hd.symm
    simp [hne]

/-- C3 witness: a vague phrase together with an unsourced claim still yields
exactly the single `no-vague-claims` violation. -/
theorem c3_witness :
    reTest VAGUE_PATTERN ("Studies show revenue grew 45%.".data) = true ∧
    (({} : Config).disabledRules.contains "no-vague-claims" = false) ∧
    (runCycle4 (some "Studies show revenue grew 45%.") "docs/research/r.md" {}).map
      Violation.ruleId = ["no-vague-claims"] :=
  ⟨by decide, by decide,
    c3_vague_short_circuit "Studies show revenue grew 45%." "docs/research/r.md" {}
      (by decide) (by decide)⟩

/-- C4 witness: the space-for-underscore near-miss
`<!-- PERPLEXITY VERIFIED -->` does not satisfy the literal marker check, so
a document carrying it and a claim still gets `no-unverified-claims`. -/
theorem c4_witness :
    (extractClaims ("<!-- PERPLEXITY VERIFIED -->\nRevenue grew 45%.".data)).length ≠ 0 ∧
    reTest VAGUE_PATTERN ("<!-- PERPLEXITY VERIFIED -->\nRevenue grew 45%.".data) = false ∧
    (({} : Config).disabledRules.contains "no-unverified-claims" = false) ∧
    includesSub ("<!-- PERPLEXITY VERIFIED -->\nRevenue grew 45%.".data)
      VERIFICATION_TAG.data = false ∧
    ((runCycle4 (some "<!-- PERPLEXITY VERIFIED -->\nRevenue grew 45%.")
        "research/x.md" {}).map Violation.ruleId).contains "no-unverified-claims"
      = true := by
  refine ⟨by decide, by decide, by decide, by decide, ?_⟩
  have h := c4_marker_exactness "<!-- PERPLEXITY VERIFIED -->\nRevenue grew 45%."
    "research/x.md" {} (by decide) (by decide) (by decide)
  rw [h]
  decide

/-- C6 witness: disabling `no-todo` removes its violation from every cycle,
here on a content that would otherwise trigger it. -/
theorem c6_witness :
    (({ disabledRules := ["no-todo"] } : Config).disabledRules.contains "no-todo" = true) ∧
    ((runCycle1 (some "// TODO: fix this") ".js" "file-write"
        { disabledRules := ["no-todo"] }).map Violation.ruleId).contains "no-todo" = false ∧
    ((runCycle2 (some "// TODO: fix this") ".js" "file-write"
        { disabledRules := ["no-todo"] }).map Violation.ruleId).contains "no-todo" = false ∧
    ((runCycle4 (some "// TODO: fix this") "research/x.md"
        { disabledRules := ["no-todo"] }).map Violation.ruleId).contains "no-todo" = false :=
  ⟨by decide,
    (c6_disabling_exhaustive "no-todo" (some "// TODO: fix this") ".js" "file-write"
      "research/x.md" { disabledRules := ["no-todo"] } (by decide)).1,
    (c6_disabling_exhaustive "no-todo" (some "// TODO: fix this") ".js" "file-write"
      "research/x.md" { disabledRules := ["no-todo"] } (by decide)).2.1,
    (c6_disabling_exhaustive "no-todo" (some "// TODO: fix this") ".js" "file-write"
      "research/x.md" { disabledRules := ["no-todo"] } (by decide)).2.2⟩

/-- Membership of a rule's id among the emitted ids is equivalent to the rule
passing every filter, provided catalog ids are unique. -/
theorem contains_id_runRules {rules : List Rule} {cycle : Nat} {content : List Char}
    {fileExt context : String} {config : Config} {rule : Rule}
    (hnodup : (rules.map Rule.id).Nodup) (hmem : rule ∈ rules) :
    (((_runRules rules cycle content fileExt context config).map
        Violation.ruleId).contains rule.id = true)
      ↔ rulePasses rule content fileExt context config = true := by
  constructor
  · intro h
    simp at h
    obtain ⟨v, hv, hid⟩ := h
    obtain ⟨rule', hmem', hp', rfl⟩ := mem_runRules.mp hv
    have he : rule' = rule := List.inj_on_of_nodup_map hnodup hmem' hmem hid
    rwa [he] at hp'
  · intro hp
    have hv : ({ ruleId := rule.id, cycle := cycle, message := rule.message } : Violation)
        ∈ _runRules rules cycle content fileExt context config :=
      mem_runRules.mpr ⟨rule, hmem, hp, rfl⟩
    simp
    exact ⟨_, hv, rfl⟩

/-- C7: File-type filtering.  In the rule-evaluator loop (with the distinct
rule ids every catalog has), a rule carrying an extension allow-list never
emits its violation when the supplied extension is non-empty and not in the
list; and when the supplied extension is empty the list is ignored — the
rule fires exactly when it is enabled, its context filter passes and its
pattern matches. -/
theorem c7_file_type_filtering (rules : List Rule) (cycle : Nat) (content : List Char)
    (context : String) (config : Config) (rule : Rule) (exts : List String)
    (hnodup : (rules.map Rule.id).Nodup) (hmem : rule ∈ rules)
    (hexts : rule.fileExtensions = some exts) :
    (∀ fileExt : String, fileExt ≠ "" → exts.contains fileExt = false →
      ((_runRules rules cycle content fileExt context config).map
        Violation.ruleId).contains rule.id = false) ∧
    (((_runRules rules cycle content "" context config).map
        Violation.ruleId).contains rule.id
      = (!config.disabledRules.contains rule.id &&
         (rule.appliesTo == "all" || rule.appliesTo == context) &&
         reTest rule.pattern content)) := by
  constructor
  · intro fileExt hne hni
    cases hb : ((_runRules rules cycle content fileExt context config).map
        Violation.ruleId).contains rule.id with
    | false => rfl
    | true =>
      have hp := (contains_id_runRules hnodup hmem).mp hb
      rw [rulePasses, hexts] at hp
      simp [hne] at hp
      exact absurd hp.1.2 (by simpa using hni)
  · rw [Bool.eq_iff_iff, contains_id_runRules hnodup hmem]
    rw [rulePasses, hexts]
    simp

/-- C7 witness: `no-empty-pass` (scoped to `.py`/`.pyi`) stays silent for a
`.js` extension on matching content, and with an empty extension fires under
the context/disabled/pattern conditions alone. -/
theorem c7_witness :
    (CYCLE1_RULES.map Rule.id).Nodup ∧
    noEmptyPassRule ∈ CYCLE1_RULES ∧
    noEmptyPassRule.fileExtensions = some [".py", ".pyi"] ∧
    (".js" : String) ≠ "" ∧
    ([".py", ".pyi"].contains (".js" : String) = false) ∧
    ((_runRules CYCLE1_RULES 1 "pass\n".data ".js" "file-write" {}).map
      Violation.ruleId).contains "no-empty-pass" = false ∧
    (((_runRules CYCLE1_RULES 1 "pass\n".data "" "file-write" {}).map
        Violation.ruleId).contains "no-empty-pass"
      = (!({} : Config).disabledRules.contains "no-empty-pass" &&
         (noEmptyPassRule.appliesTo == "all" || noEmptyPassRule.appliesTo == "file-write") &&
         reTest noEmptyPassRule.pattern "pass\n".data)) := by
  refine ⟨by decide, by decide, rfl, by decide, by decide, ?_, ?_⟩
  · exact (c7_file_type_filtering CYCLE1_RULES 1 "pass\n".data "file-write" {}
      noEmptyPassRule [".py", ".pyi"] (by decide) (by decide) rfl).1 ".js"
      (by decide) (by decide)
  · exact (c7_file_type_filtering CYCLE1_RULES 1 "pass\n".data "file-write" {}
      noEmptyPassRule [".py", ".pyi"] (by decide) (by decide) rfl).2

/-- Folding the claim-collection step over patterns that have no match leaves
the accumulator unchanged. -/
theorem foldl_matches_eq (cs : List Char) (ps : List RE)
    (h : ∀ p ∈ ps, matchesOf p cs = [])
    (acc : List (Nat × List Char) × List ClaimSpan) :
    ps.foldl (fun acc p =>
      (matchesOf p cs).foldl
        (fun acc m =>
          if acc.1.contains (m.1, m.2) then acc
          else ((m.1, m.2) :: acc.1, acc.2 ++ [{ text := m.2, index := m.1 }])) acc) acc
      = acc := by
  induction ps generalizing acc with
  | nil => rfl
  | cons p rest ih =>
    rw [List.foldl_cons, h p (List.mem_cons_self _ _), List.foldl_nil]
    exact ih (fun q hq => h q (List.mem_cons_of_mem _ hq)) acc

/-- Documents in which no claim pattern has a match produce no claims. -/
theorem extractClaims_eq_nil {cs : List Char}
    (h : ∀ p ∈ CLAIM_PATTERNS, matchesOf p cs = []) : extractClaims cs = [] := by
  unfold extractClaims
  rw [foldl_matches_eq cs CLAIM_PATTERNS h ([], [])]

/-- C8: Totality on malformed input.  For content that is `null` (which the
rule engines coerce to the string "null", matching no rule) or empty or
whitespace-only, `runCycle1`, `runCycle2` and `runCycle4` each return the
empty violation list, for every extension, context, path and configuration;
being total Lean functions they raise nothing.  The empty string is the
whitespace-only case `s = ""`. -/
theorem c8_totality (s : String) (fileExt context filePath : String) (config : Config)
    (hs : s.data.all jsSpace = true) :
    runCycle1 (some s) fileExt context config = [] ∧
    runCycle2 (some s) fileExt context config = [] ∧
    runCycle4 (some s) filePath config = [] ∧
    runCycle1 none fileExt context config = [] ∧
    runCycle2 none fileExt context config = [] ∧
    runCycle4 none filePath config = [] := by
  have hsf : ∀ c ∈ s.data, notSpace c = false := by
    intro c hc
    have := List.all_eq_true.mp hs c hc
    simp [notSpace, this]
  have h1 : ∀ rule ∈ CYCLE1_RULES, consumes notSpace rule.pattern = true := by decide
  have h2 : ∀ rule ∈ CYCLE2_RULES, consumes notSpace rule.pattern = true := by decide
  have hn1 : ∀ rule ∈ CYCLE1_RULES, reTest rule.pattern "null".data = false := by decide
  have hn2 : ∀ rule ∈ CYCLE2_RULES, reTest rule.pattern "null".data = false := by decide
  have hclaimcons : ∀ p ∈ CLAIM_PATTERNS, consumes notSpace p = true := by decide
  refine ⟨?_, ?_, ?_, ?_, ?_, rfl⟩
  · exact runRules_eq_nil (fun rule hr => reTest_eq_false_of_consumes (h1 rule hr) hsf)
  · exact runRules_eq_nil (fun rule hr => reTest_eq_false_of_consumes (h2 rule hr) hsf)
  · by_cases hemp : s = ""
    · simp [runCycle4, hemp]
    · have hvnone : execFrom VAGUE_PATTERN s.data 0 = none :=
        execFrom_eq_none_of_consumes (P := notSpace) (by decide) hsf 0
      have hcl : extractClaims s.data = [] :=
        extractClaims_eq_nil (fun p hp =>
          matchesOf_eq_nil_of_consumes (P := notSpace) (hclaimcons p hp) hsf)
      have hpass : runCycle4Pass2 s.data config.disabledRules = [] := by
        simp [runCycle4Pass2, hcl]
      by_cases hd1 : "no-vague-claims" ∈ config.disabledRules
      · simp [runCycle4, hemp, hd1, hpass]
      · simp [runCycle4, hemp, hd1, hvnone, hpass]
  · exact runRules_eq_nil hn1
  · exact runRules_eq_nil hn2

/-- C8 witness: a whitespace-only content and the `null` content at concrete
arguments. -/
theorem c8_witness :
    (" \t\n".data.all jsSpace = true) ∧
    runCycle1 (some " \t\n") ".py" "file-write" {} = [] ∧
    runCycle2 (some " \t\n") ".py" "file-write" {} = [] ∧
    runCycle4 (some " \t\n") "research/a.md" {} = [] ∧
    runCycle1 none ".py" "file-write" {} = [] ∧
    runCycle4 none "research/a.md" {} = [] := by
  have h := c8_totality " \t\n" ".py" "file-write" "research/a.md" {} (by decide)
  exact ⟨by decide, h.1, h.2.1, h.2.2.1, h.2.2.2.1, h.2.2.2.2.2⟩

-- Character-level lemmas for the path utilities.

/-- Order on characters through `toNat`. -/
theorem charLe_iff {a b : Char} : a ≤ b ↔ a.toNat ≤ b.toNat := by
  rw [Char.le_def, UInt32.le_def, BitVec.le_def]
  exact Iff.rfl

/-- `Char.ofNat` at a valid scalar value. -/
theorem toNat_ofNat_valid {n : Nat} (h : n.isValidChar) : (Char.ofNat n).toNat = n := by
  rw [Char.ofNat, dif_pos h]
  rfl

/-- Characters with equal scalar values are equal. -/
theorem char_toNat_inj {a b : Char} (h : a.toNat = b.toNat) : a = b :=
  Char.ext (UInt32.ext h)

/-- What `toLowerChar` does, on scalar values. -/
theorem toLowerChar_toNat (c : Char) :
    (toLowerChar c).toNat =
      if 65 ≤ c.toNat ∧ c.toNat ≤ 90 then c.toNat + 32 else c.toNat := by
  unfold toLowerChar
  by_cases h : 65 ≤ c.toNat ∧ c.toNat ≤ 90
  · rw [if_pos h]
    have hb : ('A' ≤ c && c ≤ 'Z') = true := by
      simp only [Bool.and_eq_true, decide_eq_true_eq]
      exact ⟨charLe_iff.mpr h.1, charLe_iff.mpr h.2⟩
    rw [if_pos hb]
    exact toNat_ofNat_valid (Or.inl (by omega))
  · rw [if_neg h]
    have hb : ¬(('A' ≤ c && c ≤ 'Z') = true) := by
      simp only [Bool.and_eq_true, decide_eq_true_eq]
      intro hc
      exact h ⟨charLe_iff.mp hc.1, charLe_iff.mp hc.2⟩
    rw [if_neg hb]

/-- For a target character that is neither an ASCII capital nor the image of
one, lower-casing reflects equality. -/
theorem toLowerChar_eq_iff {k : Char} (hk1 : ¬(65 ≤ k.toNat ∧ k.toNat ≤ 90))
    (hk2 : ¬(97 ≤ k.toNat ∧ k.toNat ≤ 122)) (c : Char) :
    toLowerChar c = k ↔ c = k := by
  constructor
  · intro h
    have hn := congrArg Char.toNat h
    rw [toLowerChar_toNat] at hn
    by_cases hc : 65 ≤ c.toNat ∧ c.toNat ≤ 90
    · rw [if_pos hc] at hn
      exact absurd ⟨by omega, by omega⟩ hk2
    · rw [if_neg hc] at hn
      exact char_toNat_inj hn
  · intro h
    subst h
    exact char_toNat_inj (by rw [toLowerChar_toNat, if_neg hk1])

/-- Lower-casing is idempotent. -/
theorem toLowerChar_idem (c : Char) : toLowerChar (toLowerChar c) = toLowerChar c := by
  apply char_toNat_inj
  have h1 := toLowerChar_toNat c
  rw [toLowerChar_toNat (toLowerChar c), h1]
  split_ifs <;> omega

/-- The character map of `replaceBackslashes`. -/
theorem slash_toLowerChar_comm (c : Char) :
    toLowerChar (if c = '\\' then '/' else c)
      = (if toLowerChar c = '\\' then '/' else toLowerChar c) := by
  by_cases hc : c = '\\'
  · subst hc; decide
  · rw [if_neg hc, if_neg (fun h => hc ((toLowerChar_eq_iff (by decide) (by decide) c).mp h))]

/-- Backslash normalization is idempotent. -/
theorem replaceBackslashes_idem (l : List Char) :
    replaceBackslashes (replaceBackslashes l) = replaceBackslashes l := by
  unfold replaceBackslashes
  rw [List.map_map]
  congr 1
  funext c
  simp only [Function.comp_apply]
  by_cases hc : c = '\\'
  · subst hc; decide
  · simp [hc]

/-- Lower-casing commutes with backslash normalization and absorbs itself:
the normalized form of a lower-cased path is the normalized path. -/
theorem norm_toLower (l : List Char) :
    toLowerList (replaceBackslashes (toLowerList l))
      = toLowerList (replaceBackslashes l) := by
  unfold toLowerList replaceBackslashes
  rw [List.map_map, List.map_map, List.map_map]
  congr 1
  funext c
  simp only [Function.comp_apply]
  rw [slash_toLowerChar_comm c]
  by_cases hc : toLowerChar c = '\\'
  · rw [if_pos hc]
    decide
  · rw [if_neg hc]
    exact toLowerChar_idem c

/-- `String.mk` reaches the empty string only from the empty list. -/
theorem mk_eq_empty_iff (l : List Char) : String.mk l = "" ↔ l = [] := by
  constructor
  · intro h
    have : (String.mk l).data = ("" : String).data := by rw [h]
    simpa using this
  · intro h
    rw [h]

/-- A string whose character list is empty is the empty string. -/
theorem data_eq_nil_iff (p : String) : p.data = [] ↔ p = "" := by
  cases p with
  | mk d => exact (mk_eq_empty_iff d).symm

/-- Lower-casing a list is idempotent. -/
theorem toLowerList_idem (l : List Char) : toLowerList (toLowerList l) = toLowerList l := by
  unfold toLowerList
  rw [List.map_map]
  congr 1
  funext c
  exact toLowerChar_idem c

/-- C9: Research-target classification.  `isResearchFile` holds exactly when
the separator-normalized, lower-cased path ends in `.md` and either contains
a `/research/` segment or has "research" in its final segment; moreover
normalizing back-slashes to slashes, or lower-casing the path, never changes
the classification. -/
theorem c9_research_classification :
    (∀ p : String, isResearchFile p = true ↔
      (endsWithList (toLowerList (replaceBackslashes p.data)) ".md".data = true ∧
       (includesSub (toLowerList (replaceBackslashes p.data)) "/research/".data = true ∨
        includesSub (lastSegment (toLowerList (replaceBackslashes p.data)))
          "research".data = true))) ∧
    (∀ p : String, isResearchFile (String.mk (replaceBackslashes p.data))
      = isResearchFile p) ∧
    (∀ p : String, isResearchFile (String.mk (toLowerList p.data))
      = isResearchFile p) := by
  refine ⟨?_, ?_, ?_⟩
  · intro p
    by_cases hp : p = ""
    · subst hp; decide
    · by_cases hend : endsWithList (toLowerList (replaceBackslashes p.data)) ".md".data = true
      · simp [isResearchFile, hp, hend]
      · rw [Bool.not_eq_true] at hend
        simp [isResearchFile, hp, hend]
  · intro p
    by_cases hp : p = ""
    · subst hp; decide
    · have hne : ¬(String.mk (replaceBackslashes p.data) = "") := by
        rw [mk_eq_empty_iff]
        intro h
        apply hp
        rw [← data_eq_nil_iff]
        have hlen := congrArg List.length h
        simp [replaceBackslashes] at hlen
        exact List.eq_nil_of_length_eq_zero hlen
      have hnorm : toLowerList (replaceBackslashes
            (String.mk (replaceBackslashes p.data)).data)
          = toLowerList (replaceBackslashes p.data) := by
        show toLowerList (replaceBackslashes (replaceBackslashes p.data)) = _
        rw [replaceBackslashes_idem]
      simp only [isResearchFile, if_neg hp, if_neg hne, hnorm]
  · intro p
    by_cases hp : p = ""
    · subst hp; decide
    · have hne : ¬(String.mk (toLowerList p.data) = "") := by
        rw [mk_eq_empty_iff]
        intro h
        apply hp
        rw [← data_eq_nil_iff]
        have hlen := congrArg List.length h
        simp [toLowerList] at hlen
        exact List.eq_nil_of_length_eq_zero hlen
      have hnorm : toLowerList (replaceBackslashes (String.mk (toLowerList p.data)).data)
          = toLowerList (replaceBackslashes p.data) := by
        show toLowerList (replaceBackslashes (toLowerList p.data)) = _
        exact norm_toLower p.data
      simp only [isResearchFile, if_neg hp, if_neg hne, hnorm]

/-- The position of the last dot is unchanged by lower-casing, since
lower-casing never creates or destroys a dot. -/
theorem lastIndexOf_toLower (cs : List Char) :
    lastIndexOf (toLowerList cs) '.' = lastIndexOf cs '.' := by
  unfold lastIndexOf toLowerList
  rw [← List.map_reverse, List.findIdx?_map]
  have hpred : ((fun d => d == '.') ∘ toLowerChar) = (fun d : Char => d == '.') := by
    funext d
    simp only [Function.comp_apply]
    rw [Bool.eq_iff_iff]
    simp only [beq_iff_eq]
    exact toLowerChar_eq_iff (by decide) (by decide) d
  rw [hpred]
  simp

/-- C10 (implicit): extension extraction lower-cases, so rule evaluation is
invariant under the letter case of a path's extension: `getFileExtension` of
the lower-cased path equals `getFileExtension` of the path, "main.PY" maps
to ".py", and a file-write of a bare `pass` under that extension is caught by
the Python-only `no-empty-pass` rule. -/
theorem c10_extension_case_invariance :
    (∀ p : String, getFileExtension (String.mk (toLowerList p.data))
      = getFileExtension p) ∧
    getFileExtension "main.PY" = ".py" ∧
    ((runCycle1 (some "pass\n") (getFileExtension "main.PY") "file-write" {}).map
      Violation.ruleId).contains "no-empty-pass" = true := by
  refine ⟨?_, by decide, by decide⟩
  intro p
  by_cases hp : p = ""
  · subst hp; decide
  · have hne : ¬(String.mk (toLowerList p.data) = "") := by
      rw [mk_eq_empty_iff]
      intro h
      apply hp
      rw [← data_eq_nil_iff]
      have hlen := congrArg List.length h
      simp [toLowerList] at hlen
      exact List.eq_nil_of_length_eq_zero hlen
    have hdata : (String.mk (toLowerList p.data)).data = toLowerList p.data := rfl
    simp only [getFileExtension, if_neg hp, if_neg hne, hdata, lastIndexOf_toLower]
    cases hL : lastIndexOf p.data '.' with
    | none => rfl
    | some lastDot =>
      simp only [toLowerList, List.length_map]
      by_cases hc : lastDot = p.data.length - 1
      · simp [hc]
      · simp only [if_neg hc]
        rw [← List.map_drop]
        show String.mk (toLowerList (toLowerList (p.data.drop lastDot))) = _
        rw [toLowerList_idem]
        rfl

set_option maxRecDepth 200000

set_option maxHeartbeats 4000000

/-- Evaluation of `runCycle4` on a tagged single-claim document whose claim
has no nearby source: the document-level `no-unsourced-claims` violation. -/
theorem runCycle4_eval_unsourced (s fp : String) (c : ClaimSpan)
    (hemp : ¬s = "")
    (hvague : reTest VAGUE_PATTERN s.data = false)
    (hclaims : extractClaims s.data = [c])
    (htag : includesSub s.data VERIFICATION_TAG.data = true)
    (hnear : hasNearbySource s.data c.index = false) :
    (runCycle4 (some s) fp {}).map Violation.ruleId = ["no-unsourced-claims"] := by
  have hexec : execFrom VAGUE_PATTERN s.data 0 = none := by
    unfold reTest at hvague
    cases he : execFrom VAGUE_PATTERN s.data 0 with
    | none => rfl
    | some q => rw [he] at hvague; exact absurd hvague (by simp)
  have hd : ¬("no-vague-claims" ∈ ({} : Config).disabledRules) := List.not_mem_nil _
  rw [show runCycle4 (some s) fp {} = runCycle4Pass2 s.data ({} : Config).disabledRules
    from by simp [runCycle4, hemp, hd, hexec]]
  simp [runCycle4Pass2, hclaims, htag, hnear, unsourcedViolation]

/-- Evaluation of `runCycle4` on a tagged single-claim document whose claim
does have a nearby source: no violations. -/
theorem runCycle4_eval_sourced (s fp : String) (c : ClaimSpan)
    (hemp : ¬s = "")
    (hvague : reTest VAGUE_PATTERN s.data = false)
    (hclaims : extractClaims s.data = [c])
    (htag : includesSub s.data VERIFICATION_TAG.data = true)
    (hnear : hasNearbySource s.data c.index = true) :
    (runCycle4 (some s) fp {}).map Violation.ruleId = [] := by
  have hexec : execFrom VAGUE_PATTERN s.data 0 = none := by
    unfold reTest at hvague
    cases he : execFrom VAGUE_PATTERN s.data 0 with
    | none => rfl
    | some q => rw [he] at hvague; exact absurd hvague (by simp)
  have hd : ¬("no-vague-claims" ∈ ({} : Config).disabledRules) := List.not_mem_nil _
  rw [show runCycle4 (some s) fp {} = runCycle4Pass2 s.data ({} : Config).disabledRules
    from by simp [runCycle4, hemp, hd, hexec]]
  simp [runCycle4Pass2, hclaims, htag, hnear]

/-- C5 counterexample: in `docSourcePlus300` the only claim ("45%") starts at
index 29 and the only source (the `[Ref: x]` marker) starts at index
329 = 29 + 300 (by the document's construction), yet the claim is NOT
treated as sourced — the window
`slice(max(0, i - 300), min(length, i + 300))` excludes its right endpoint,
so `runCycle4` reports the document unsourced.  This refutes the claim that
a source located exactly 300 characters after the claim is "nearby". -/
theorem c5_counterexample :
    extractClaims docSourcePlus300.data = [{ text := "45%".data, index := 29 }] ∧
    hasNearbySource docSourcePlus300.data 29 = false ∧
    (runCycle4 (some docSourcePlus300) "research/r.md" {}).map Violation.ruleId
      = ["no-unsourced-claims"] := by
  have h1 : extractClaims docSourcePlus300.data
      = [{ text := "45%".data, index := 29 }] := by decide
  have h2 : hasNearbySource docSourcePlus300.data 29 = false := by decide
  exact ⟨h1, h2, runCycle4_eval_unsourced _ _ _ (by decide) (by decide) h1 (by decide) h2⟩

/-- C5 amended: the source window is inclusive on the left and exclusive on
the right.  A source starting exactly 300 characters before the claim's
start index is nearby (the document passes), while sources starting 301
characters before, or 300 (see the counterexample document) or 301
characters after it, are not (the document is reported unsourced). -/
theorem c5_source_window :
    extractClaims docSourceMinus300.data = [{ text := "45%".data, index := 300 }] ∧
    hasNearbySource docSourceMinus300.data 300 = true ∧
    (runCycle4 (some docSourceMinus300) "research/r.md" {}).map Violation.ruleId = [] ∧
    extractClaims docSourceMinus301.data = [{ text := "45%".data, index := 301 }] ∧
    hasNearbySource docSourceMinus301.data 301 = false ∧
    extractClaims docSourcePlus301.data = [{ text := "45%".data, index := 29 }] ∧
    hasNearbySource docSourcePlus301.data 29 = false ∧
    (runCycle4 (some docSourcePlus301) "research/r.md" {}).map Violation.ruleId
      = ["no-unsourced-claims"] := by
  have e1 : extractClaims docSourceMinus300.data
      = [{ text := "45%".data, index := 300 }] := by decide
  have n1 : hasNearbySource docSourceMinus300.data 300 = true := by decide
  have e2 : extractClaims docSourceMinus301.data
      = [{ text := "45%".data, index := 301 }] := by decide
  have n2 : hasNearbySource docSourceMinus301.data 301 = false := by decide
  have e3 : extractClaims docSourcePlus301.data
      = [{ text := "45%".data, index := 29 }] := by decide
  have n3 : hasNearbySource docSourcePlus301.data 29 = false := by decide
  refine ⟨e1, n1, runCycle4_eval_sourced _ _ _ (by decide) (by decide) e1 (by decide) n1,
    e2, n2, e3, n3,
    runCycle4_eval_unsourced _ _ _ (by decide) (by decide) e3 (by decide) n3⟩

end TripleVerify
